import Mathlib

/-!
Shallow embedding of the DiffuAgent repository (Agentboard enhanced agents and
the BFCL model-handler utilities), together with theorems settling the frozen
claims about it.  Python strings are modelled as `List Char`, Python integers
as `Int` (or `Nat` where the source value is a count), Python floats arising
from division as `ℚ`, and fallible or external-world operations (LLM backend
calls) as explicit oracle parameters returning `Option` values.
-/

namespace DiffuAgent

/-- Python `str.strip()` whitespace test (space, tab, newline, carriage return,
form feed, vertical tab — the ASCII whitespace characters that occur here). -/
def isPyWs (c : Char) : Bool :=
  c = ' ' || c = '\t' || c = '\n' || c = '\x0d' || c = '\x0b' || c = '\x0c'

/-- Python `s.strip()`: drop leading and trailing whitespace. -/
def pyStrip (s : List Char) : List Char :=
  ((s.dropWhile isPyWs).reverse.dropWhile isPyWs).reverse

/-- Python `s.endswith(t)` for a one-character suffix `t`. -/
def pyEndsWith (s : List Char) (c : Char) : Bool :=
  match s.getLast? with
  | some d => d = c
  | none => false

/-- Python substring containment `pat in s`. -/
def isSub (pat s : List Char) : Bool :=
  s.tails.any (fun t => List.isPrefixOf pat t)

/-- One step of Python `s.replace(pat, rep)`, with fuel for termination
(`fuel = s.length` suffices for a non-empty pattern): replaces every
non-overlapping occurrence of `pat` left to right. -/
def pyReplaceF (pat rep : List Char) : Nat → List Char → List Char
  | 0, s => s
  | _ + 1, [] => []
  | fuel + 1, c :: rest =>
    if List.isPrefixOf pat (c :: rest) then
      rep ++ pyReplaceF pat rep fuel (List.drop pat.length (c :: rest))
    else
      c :: pyReplaceF pat rep fuel rest

/-- Python `s.replace(pat, rep)` for a non-empty pattern. -/
def pyReplace (s pat rep : List Char) : List Char :=
  pyReplaceF pat rep s.length s

/-- Python `s[n:]` on a list: for non-negative `n` drop the first `n`
elements, for negative `n` keep the last `-n` elements. -/
def pySliceFrom (n : Int) (l : List α) : List α :=
  if 0 ≤ n then l.drop n.toNat else l.drop ((l.length : Int) + n).toNat

/-- Number of newline characters in a string. -/
def countNl (s : List Char) : Nat :=
  s.count '\n'

/-- Python `s.splitlines()` for text whose only line terminator is `'\n'`:
split at newlines, with no trailing empty piece when the text ends in a
newline (and `[]` on the empty string). -/
def splitlinesNl (s : List Char) : List (List Char) :=
  let parts := s.splitOn '\n'
  match parts.getLast? with
  | some [] => parts.dropLast
  | _ => parts

/-- Python `"\n".join(lines)`. -/
def joinNl (lines : List (List Char)) : List Char :=
  match lines with
  | [] => []
  | l :: rest => l ++ (rest.map (fun x => '\n' :: x)).flatten

/-!
`calculate_leftover_tokens` from
`BFCL/bfcl_eval/model_handler/api_inference/utils/llm_utils.py`.
-/

/-- Embedding of `calculate_leftover_tokens(max_context_length,
input_token_count)`: 1000 when the context is already overflowing, otherwise
the remaining budget capped at 4096. -/
def calculate_leftover_tokens (max_context_length input_token_count : Int) : Int :=
  if max_context_length < input_token_count + 2 then
    1000
  else
    min 4096 (max_context_length - input_token_count - 2)

/-!
`EvalalfworldEnhanced.parseAction` from
`Agentboard/tasks/enhanced/alfworld_enhanced.py`.
-/

/-- Embedding of the household driver's `parseAction(action)`: strip
surrounding whitespace; when the text contains `"put"`, rewrite every
occurrence of `" in "` (or, when none occurs, every `" on "`) to `" in/on "`;
finally drop one trailing period and strip again. -/
def parseAction (action : List Char) : List Char :=
  let a := pyStrip action
  let a :=
    if isSub "put".toList a then
      if isSub " in ".toList a then pyReplace a " in ".toList " in/on ".toList
      else if isSub " on ".toList a then pyReplace a " on ".toList " in/on ".toList
      else a
    else a
  if pyEndsWith a '.' then pyStrip a.dropLast else a

/-!
`BaseEnhancedTask.calculate_difficulty_metrics` from
`Agentboard/tasks/enhanced/base_enhanced.py`.
-/

/-- Result record of `calculate_difficulty_metrics`: the seven entries of the
dict literal the Python function returns (keys `sr`, `pr`, `gr`, `hard_sr`,
`hard_pr`, `easy_sr`, `easy_pr`). -/
structure DiffMetrics where
  sr : ℚ
  pr : ℚ
  gr : ℚ
  hard_sr : ℚ
  hard_pr : ℚ
  easy_sr : ℚ
  easy_pr : ℚ
  deriving Repr, DecidableEq

/-- Values of `xs` at the positions where the parallel `difficulties` list
equals `tag` (the Python list comprehension over `zip(xs, difficulties)`). -/
def selectByTag (xs : List ℚ) (difficulties : List (List Char)) (tag : List Char) :
    List ℚ :=
  ((xs.zip difficulties).filter (fun p => p.2 = tag)).map (fun p => p.1)

/-- Python `sum(l) / len(l) if len(l) > 0 else 0`. -/
def meanOrZero (l : List ℚ) : ℚ :=
  if 0 < l.length then l.sum / l.length else 0

/-- Embedding of `calculate_difficulty_metrics(srs, scores, grounding_accs,
difficulties)`.  The three overall rates divide by the corresponding list
length unconditionally (in Python an empty list raises there; the claims are
restricted to non-empty inputs, where the two semantics agree); the four
per-difficulty rates fall back to 0 on an empty subset exactly as the source
does. -/
def calculate_difficulty_metrics (srs scores grounding_accs : List ℚ)
    (difficulties : List (List Char)) : DiffMetrics :=
  { sr := srs.sum / srs.length
    pr := scores.sum / scores.length
    gr := grounding_accs.sum / grounding_accs.length
    hard_sr := meanOrZero (selectByTag srs difficulties "hard".toList)
    hard_pr := meanOrZero (selectByTag scores difficulties "hard".toList)
    easy_sr := meanOrZero (selectByTag srs difficulties "easy".toList)
    easy_pr := meanOrZero (selectByTag scores difficulties "easy".toList) }

/-!
Model of `difflib.SequenceMatcher(None, a, b).ratio()` (no junk, inputs short
enough that the autojunk heuristic is inactive), as used by
`find_most_similar_action` in `Agentboard/agents/enhanced/utils/utils.py`.
-/

/-- Contiguous segment `l[i : i+k]`. -/
def seg (l : List Char) (i k : Nat) : List Char :=
  (l.drop i).take k

/-- First pair `(i, j)` (ordered by `i`, then `j`) with
`a[i : i+k] = b[j : j+k]`, `alo ≤ i`, `i+k ≤ ahi`, `blo ≤ j`, `j+k ≤ bhi`. -/
def findMatchAt (a b : List Char) (alo ahi blo bhi k : Nat) : Option (Nat × Nat) :=
  (List.range' alo (ahi + 1 - k - alo)).findSome? (fun i =>
    ((List.range' blo (bhi + 1 - k - blo)).find? (fun j =>
      seg a i k = seg b j k)).map (fun j => (i, j)))

/-- The `find_longest_match` contract for junk-free inputs: among all maximal
matching blocks of `a[alo:ahi]` and `b[blo:bhi]` return the one starting
earliest in `a` and, among those, earliest in `b`; `(alo, blo, 0)` when the
windows share no elements. -/
def findLongestMatch (a b : List Char) (alo ahi blo bhi : Nat) : Nat × Nat × Nat :=
  let kmax := min (ahi - alo) (bhi - blo)
  match ((List.range kmax).map (fun t => kmax - t)).findSome? (fun k =>
      (findMatchAt a b alo ahi blo bhi k).map (fun p => (p.1, p.2, k))) with
  | some r => r
  | none => (alo, blo, 0)

/-- Total size of the matching blocks of `get_matching_blocks` restricted to
the windows `a[alo:ahi]`, `b[blo:bhi]`: take the longest match, recurse on
the parts to its left and to its right.  The fuel bounds the recursion depth;
any fuel at least the window length `ahi - alo` gives the true value, since
each recursive window is strictly shorter. -/
def matchSizeF (a b : List Char) : Nat → Nat → Nat → Nat → Nat → Nat
  | 0, _, _, _, _ => 0
  | fuel + 1, alo, ahi, blo, bhi =>
    let m := findLongestMatch a b alo ahi blo bhi
    if m.2.2 = 0 then 0
    else
      matchSizeF a b fuel alo m.1 blo m.2.1 + m.2.2 +
        matchSizeF a b fuel (m.1 + m.2.2) ahi (m.2.1 + m.2.2) bhi

/-- Total matched size between `a` and `b` (the `sum(triple[-1] ...)` of
`SequenceMatcher.ratio`). -/
def matchSize (a b : List Char) : Nat :=
  matchSizeF a b a.length 0 a.length 0 b.length

/-- Embedding of `SequenceMatcher(None, a, b).ratio()` as an exact rational:
`2*M / (len(a)+len(b))`, and 1 when both strings are empty. -/
def similarityRatio (a b : List Char) : ℚ :=
  if a.length + b.length = 0 then 1
  else (2 * matchSize a b : ℚ) / (a.length + b.length)

/-!
`find_most_similar_action` from `Agentboard/agents/enhanced/utils/utils.py`.
-/

/-- One step of Python `max(similarities, key=lambda x: x[1])` over the
`(action, ratio)` pairs: a later element replaces the current best only on a
strictly greater score, so the first maximal element wins. -/
def simStep (pred : List Char) (best : List Char × ℚ) (a : List Char) :
    List Char × ℚ :=
  if similarityRatio pred a > best.2 then (a, similarityRatio pred a) else best

/-- Python `max` over the non-empty similarity list headed by `v`. -/
def bestSimilar (pred v : List Char) (rest : List (List Char)) : List Char × ℚ :=
  rest.foldl (simStep pred) (v, similarityRatio pred v)

/-- Embedding of `find_most_similar_action(pred_action, valid_actions)`:
return the prediction when it is already valid; otherwise the
highest-similarity valid action when its ratio exceeds 0.5, else the
prediction.  `none` models the `ValueError` Python's `max` raises on an empty
`valid_actions`. -/
def find_most_similar_action (pred : List Char) (valid : List (List Char)) :
    Option (List Char) :=
  if pred ∈ valid then some pred
  else
    match valid with
    | [] => none
    | v :: rest =>
      let best := bestSimilar pred v rest
      if best.2 > 1/2 then some best.1 else some pred

/-!
`DynamicMemory` from `Agentboard/agents/enhanced/utils/dynamic_memory.py`.
The LLM backend's `generate` is modelled by an oracle: one `Option GenResp`
per retry attempt, `none` meaning the call raised.
-/

/-- Shape of the `response` component of a backend `generate` reply
(`Agentboard/llm/enhanced/api_llm.py`, `api_dllm.py`): plain text when the
backend was configured with `return_token=False`, a `(text, token_count)`
pair when `return_token=True`. -/
inductive GenResp where
  | plain (s : List Char)
  | pair (s : List Char) (tok : Nat)
  deriving Repr, DecidableEq

/-- Python `response[0]` on a `generate` reply: the text component of a pair,
the first character (as a one-character string) of non-empty plain text, and
an `IndexError` (`none`) on empty plain text. -/
def respIndexZero : GenResp → Option (List Char)
  | .plain [] => none
  | .plain (c :: _) => some [c]
  | .pair s _ => some s

/-- The retry loop of `DynamicMemory.update`: attempts are tried in order;
the first one whose `generate` call returns (`some r`) and whose
`response[0]` indexing does not raise yields the new `memory_str`, and the
loop breaks; exceptions fall through to the next attempt. -/
def tryAttempts : List (Option GenResp) → Option (List Char)
  | [] => none
  | none :: rest => tryAttempts rest
  | some r :: rest =>
    match respIndexZero r with
    | some s => some s
    | none => tryAttempts rest

/-- State of a `DynamicMemory` instance: the summary string, the pending
list, and the two integer tunables fixed by `reset`. -/
structure DMem where
  memory_str : List Char
  stored : List (List Char)
  stored_memory_max : Int
  update_num : Int
  deriving Repr, DecidableEq

/-- Embedding of `DynamicMemory.reset(...)`: summary `"(empty)"`, empty
pending list. -/
def DMem.resetMem (stored_memory_max update_num : Int) : DMem :=
  { memory_str := "(empty)".toList
    stored := []
    stored_memory_max := stored_memory_max
    update_num := update_num }

/-- Embedding of `DynamicMemory.update(disable)`: unless disabled, up to
three `generate` attempts (outcomes given by the oracle list `attempts`) may
install `response[0]` as the new summary; in every case the consumed prefix
`stored[:update_num]` is removed by the final `stored = stored[update_num:]`
slice. -/
def DMem.update (m : DMem) (disable : Bool) (attempts : List (Option GenResp)) :
    DMem :=
  let m1 :=
    if disable then m
    else
      match tryAttempts (attempts.take 3) with
      | some s => { m with memory_str := s }
      | none => m
  { m1 with stored := pySliceFrom m1.update_num m1.stored }

/-- Embedding of `DynamicMemory.store(message, disable_update)` instrumented
with whether the flush (the `update()` call) fired: append the message, then
update exactly when the pending count has reached `stored_memory_max`. -/
def DMem.storeF (m : DMem) (message : List Char) (disable_update : Bool)
    (attempts : List (Option GenResp)) : DMem × Bool :=
  if (((m.stored ++ [message]).length : Int)) ≥ m.stored_memory_max then
    (DMem.update { m with stored := m.stored ++ [message] } disable_update attempts, true)
  else
    ({ m with stored := m.stored ++ [message] }, false)

/-- Embedding of `DynamicMemory.store` proper (the state part). -/
def DMem.store (m : DMem) (message : List Char) (disable_update : Bool)
    (attempts : List (Option GenResp)) : DMem :=
  (m.storeF message disable_update attempts).1

/-- Embedding of `DynamicMemory.len_store()`. -/
def DMem.len_store (m : DMem) : Nat :=
  m.stored.length

/-- One recorded `store` call: the message, the `disable_update` flag, and
the oracle outcomes of the retry attempts of the flush it may trigger. -/
structure StoreCall where
  message : List Char
  disable_update : Bool
  attempts : List (Option GenResp)

/-- Run a sequence of `store` calls against a `DynamicMemory` state. -/
def runStores (m : DMem) (calls : List StoreCall) : DMem :=
  calls.foldl (fun s c => s.store c.message c.disable_update c.attempts) m

/-!
Verification scheduling: `VerificationMixin.update_extended` from
`Agentboard/agents/enhanced/mixins/verification.py` together with
`ReactAgentBase.update` from `Agentboard/agents/enhanced/react_agent_base.py`.
-/

/-- Guard of `update_extended(obs)`: a verification check runs exactly when
`verification_iter > 0` (in which case `reset_extended` created the
verification module, so the `hasattr` tests pass) and
`steps % verification_iter == 0`.  Both operands of `%` are non-negative
whenever the guard evaluates it, so Python `%` and `Int.emod` agree. -/
def shouldVerify (verification_iter steps : Int) : Bool :=
  verification_iter > 0 && steps % verification_iter = 0

/-- Step counter and verification frequency of an agent. -/
structure AgentV where
  steps : Int
  verification_iter : Int
  deriving Repr, DecidableEq

/-- Embedding of one `ReactAgentBase.update` call as seen by the
verification mixin: increment `steps`, then report whether
`update_extended` runs a verification check. -/
def AgentV.updateStep (a : AgentV) : AgentV × Bool :=
  let a1 : AgentV := { a with steps := a.steps + 1 }
  (a1, shouldVerify a1.verification_iter a1.steps)

/-- Agent state after `n` `update` calls from a fresh `reset` (where
`steps = 0`), paired with whether the `n`-th update ran a verification
check (`false` for `n = 0`: `reset` runs no check). -/
def nthUpdate (verification_iter : Int) : Nat → AgentV × Bool
  | 0 => ({ steps := 0, verification_iter := verification_iter }, false)
  | n + 1 => (nthUpdate verification_iter n).1.updateStep

/-!
`Selector` from `bfcl_eval/model_handler/api_inference/utils/selector_utils.py`
and `Format_Editor` from
`bfcl_eval/model_handler/api_inference/utils/fmeditor_utils.py`.  The feature
backend (`self.llm`) is modelled as a record of oracle functions.
-/

/-- A chat message: a role and a text content. -/
structure PyMsg where
  role : List Char
  content : List Char
  deriving Repr, DecidableEq

/-- A candidate function offered to the model: its `name` and `description`
dict entries. -/
structure PyFunc where
  name : List Char
  description : List Char
  deriving Repr, DecidableEq

/-- A backend chat reply: `response.text` and `response.num_token`. -/
structure ChatResp where
  text : List Char
  num_token : Nat
  deriving Repr, DecidableEq

/-- The feature backend used by `Selector`: token counting, context window,
and chat completion (`none` models a raised exception, caught by
`run_selector`'s bare `except`). -/
structure SelLlm where
  numTokens : List PyMsg → Nat
  contextLength : Nat
  chatCompletion : List PyMsg → Option ChatResp

/-- Python `content if len(content) < 512 else content[:512]`. -/
def truncate512 (c : List Char) : List Char :=
  if c.length < 512 then c else c.take 512

/-- First line of a text: Python `content.split("\n")[0]`. -/
def firstLine (c : List Char) : List Char :=
  c.takeWhile (fun ch => ch ≠ '\n')

/-- Python `s.rstrip(chars)`: drop trailing characters belonging to the
character set of `chars`. -/
def pyRstripSet (s chars : List Char) : List Char :=
  (s.reverse.dropWhile (fun c => chars.contains c)).reverse

/-- Simple JSON rendering of a string (quotes around the raw characters;
the inputs that occur here contain nothing needing escaping). -/
def jsonStr (s : List Char) : List Char :=
  '"' :: s ++ ['"']

/-- Rendering of `json.dumps(self._extract_function_meta(functions), ...)`:
the name/description pairs of the candidate functions as a JSON array. -/
def renderFunctionMeta (functions : List PyFunc) : List Char :=
  let one := fun (f : PyFunc) =>
    '\x7b' :: ("\"name\": ".toList ++ jsonStr f.name ++ ", \"description\": ".toList
      ++ jsonStr f.description ++ ['\x7d'])
  '[' :: (List.intercalate ", ".toList (functions.map one)) ++ [']']

/-- The fixed char set Python strips from the right of a tool-result block
in `_extract_history_str` (the `rstrip` argument is a character set, not a
suffix). -/
def toolResultRstripChars : List Char :=
  "Please modify the functions or parameters based on this.".toList

/-- One message processed by `Selector._extract_history_str`: threads the
history string and the count of already-omitted tool-result blocks. -/
def historyStep (omitN : Nat) (st : List Char × Nat) (m : PyMsg) :
    List Char × Nat :=
  let content := truncate512 m.content
  if m.role = "user".toList ∧ isSub "[Tool Execution Result]".toList content then
    if st.2 < omitN then (st.1, st.2 + 1)
    else (st.1 ++ pyRstripSet (pyStrip content) toolResultRstripChars ++ ['\n'], st.2)
  else if m.role = "user".toList then
    ("[User Message]\n".toList ++ content ++ "\n\n".toList, st.2)
  else if m.role = "assistant".toList then
    (st.1 ++ "[Tool Call]\n".toList ++ firstLine content ++ ['\n'], st.2)
  else st

/-- Embedding of `Selector._extract_history_str(message, omit)`. -/
def extractHistoryStr (message : List PyMsg) (omitN : Nat) : List Char :=
  (message.foldl (historyStep omitN) ([], 0)).1

/-- The fixed system instructions of the selector prompt. -/
def selectorSystemInstructions : List Char :=
  "\nYou are a tool selector for a function-calling agent.\n\nTask:\nGiven a user message ([User Message]), the previous tool call([Tool Call]) and its results([Tool Execution Results], You must select a minimum of **3 distinct functions** from the provided list.\n\nRules:\n- Output at least 3 function names, and no more than 10 functions.\n- Use ONLY names from the provided function list.\n- Output ONLY function names. No explanations or extra text.\n- Prioritize the [USER MESSAGE] above all else; use previous tool calls and results only as supplementary context.\n".toList

/-- Embedding of `Selector.build_selector_prompt(functions, user_message,
history_omit)`: the fixed system turn plus a user turn holding the rendered
function metadata and the extracted history. -/
def buildSelectorPrompt (functions : List PyFunc) (user_message : List PyMsg)
    (history_omit : Nat) : List PyMsg :=
  [⟨"system".toList, selectorSystemInstructions⟩,
   ⟨"user".toList,
     "Functions:\n".toList ++ renderFunctionMeta functions ++ "\n\n".toList
       ++ extractHistoryStr user_message history_omit ++ "\n\nSelected Functions:".toList⟩]

/-- The length-control loop of `run_selector`: starting from omit count `n`,
rebuild the prompt and raise the omit count while the token length exceeds
the backend's context window and the omit ceiling of 20 is not yet reached;
the returned prompt is the last one built.  The fuel bounds the recursion
(21 suffices from `n = 0` since the omit count grows by one per step up to
20). -/
def selectorFitLoop (llm : SelLlm) (functions : List PyFunc)
    (user_message : List PyMsg) : Nat → Nat → List PyMsg
  | 0, n => buildSelectorPrompt functions user_message n
  | fuel + 1, n =>
    let msg := buildSelectorPrompt functions user_message n
    if llm.numTokens msg > llm.contextLength ∧ n < 20 then
      selectorFitLoop llm functions user_message fuel (n + 1)
    else msg

/-- Embedding of `Selector._post_process(response, functions)`: a candidate
is selected iff its literal name occurs in the raw reply text. -/
def selectorPostProcess (response : List Char) (functions : List PyFunc) :
    List (List Char) :=
  (functions.filter (fun f => isSub f.name response)).map (fun f => f.name)

/-- Embedding of `Selector.run_selector(functions, user_message)`: with 3 or
fewer candidates, return every name with zero token cost; otherwise fit the
prompt, call the backend (an exception yields `([], 0)`) and keep the
candidates named in the reply. -/
def run_selector (llm : SelLlm) (functions : List PyFunc)
    (user_message : List PyMsg) : List (List Char) × Nat :=
  if functions.length ≤ 3 then
    (functions.map (fun f => f.name), 0)
  else
    let msg := selectorFitLoop llm functions user_message 21 0
    match llm.chatCompletion msg with
    | none => ([], 0)
    | some r => (selectorPostProcess r.text functions, r.num_token)

/-- The editor backend used by `Format_Editor` (no exception handling exists
in `run_formateditor`, so `chatCompletion` is total here). -/
structure FmLlm where
  numTokens : List PyMsg → Nat
  contextLength : Nat
  chatCompletion : List PyMsg → ChatResp

/-- Embedding of `Format_Editor.user_message_to_history(message)`: join the
non-system messages as `"ROLE: content"` lines (computed, but unused, by
`build_editor_prompt`). -/
def userMessageToHistory (message : List PyMsg) : List Char :=
  joinNl ((message.filter (fun m => m.role ≠ "system".toList)).map
    (fun m => m.role.map Char.toUpper ++ ": ".toList ++ m.content))

/-- The fixed system prompt of the format editor. -/
def fmSystemPrompt : List Char :=
  "You are a strict tool-call format auditor and repairer.\n\nYour task:\nTask: Repair or validate a broken tool-call and output a final call that strictly follows TOOL_CALL_FORMAT. \n\nRules:\n1.  If the tool-call is already valid and correct, output UNCHANGED.\n2.  If the tool-call is textual explanations, output NO_VALID_TOOL_CALLS.\n3.  If the tool-call contains both explanations and tool-calls, remove the explanations and correct the tool-calls.\n4.  If the tool-call does not conform to TOOL_CALL_FORMAT, repair any format or schema errors and output the corrected tool-call only; do not invent functions or parameters.\n\nTOOL_CALL_FORMAT:\n[func_name1(param_name1=param_value1, param_name2=param_value2, ...), func_name2(param_name3=param_value3, ...)]\n\nexamples:\nBROKEN_TOOL_CALL 1:\n[cd(folder=\"academic_venture\")]\nOutput 1:\nUNCHANGED\n\nBROKEN_TOOL_CALL 2:\n```cd(folder=\"academic_venture\")```\nOutput 2:\n[cd(folder=\"academic_venture\")]\n\nBROKEN_TOOL_CALL 3:\n\x7b\"cd\": \x7b\"folder\": \"academic_venture\"\x7d\x7d\nOutput 3:\n[cd(folder=\"academic_venture\")]\n\nBROKEN_TOOL_CALL 4:\nThe task is now complete.\nOutput 4:\nNO_VALID_TOOL_CALLS\n\nBROKEN_TOOL_CALL 4:\nThe task is now complete. The final tool-call is \x7b\"ls\": \x7b\x7d\x7d\nOutput 4:\n[ls()]\n".toList

/-- Prefix of the editor user prompt (up to the embedded response). -/
def fmUserPrefix : List Char :=
  "BROKEN_TOOL_CALL (to be audited and possibly corrected):\n".toList

/-- Suffix of the editor user prompt (after the embedded response). -/
def fmUserSuffix : List Char :=
  "\n\nNow produce the final output according to the rules above. No explanations, markdown, or extra text.\n\nOutput:\n".toList

/-- Embedding of `Format_Editor.build_editor_prompt(message, response)`: the
fixed system turn plus a user turn embedding the candidate response. -/
def buildEditorPrompt (message : List PyMsg) (response : List Char) :
    List PyMsg :=
  [⟨"system".toList, fmSystemPrompt⟩,
   ⟨"user".toList, fmUserPrefix ++ response ++ fmUserSuffix⟩]

/-- The length-fitting loop of `run_formateditor`: while the candidate is
multi-line and its prompt exceeds the editor backend's context window, drop
the last line; a single-line candidate is hard-capped at its first 10000
characters.  Returns the fitted candidate and the last prompt built (the
prompt the backend is then called with — note the source builds it before
the 10000-character cap is applied).  The fuel bounds the recursion depth;
`countNl r + 1` suffices since each dropped line removes at least one
newline. -/
def fmFitF (llm : FmLlm) (messages : List PyMsg) :
    Nat → List Char → List Char × List PyMsg
  | 0, r => (r, buildEditorPrompt messages r)
  | fuel + 1, r =>
    let em := buildEditorPrompt messages r
    if countNl r = 0 then
      (if r.length > 10000 then r.take 10000 else r, em)
    else if llm.numTokens em > llm.contextLength then
      fmFitF llm messages fuel (joinNl (splitlinesNl r).dropLast)
    else (r, em)

/-- The length-fitting loop started on a candidate response. -/
def fmFit (llm : FmLlm) (messages : List PyMsg) (r : List Char) :
    List Char × List PyMsg :=
  fmFitF llm messages (countNl r + 1) r

/-- Reply test of `run_formateditor`: does the editor's reply contain one of
the three pass-through sentinels? -/
def fmSentinel (t : List Char) : Bool :=
  isSub "MISSING".toList t || isSub "UNCHANGED".toList t ||
    isSub "NO_VALID_TOOL_CALLS".toList t

/-- Embedding of `Format_Editor.run_formateditor(messages, functions,
agent_response)`: length-fit the candidate, call the editor (capped reply),
and return the fitted candidate when the reply contains a sentinel, the
reply text otherwise.  The `functions` argument is accepted but unused on
the live path, as in the source. -/
def run_formateditor (llm : FmLlm) (messages : List PyMsg)
    (functions : List PyFunc) (agent_response : List Char) : List Char :=
  let fitted := fmFit llm messages agent_response
  let response := llm.chatCompletion fitted.2
  if fmSentinel response.text then fitted.1 else response.text

/-- A concrete editor backend for evaluating `run_formateditor` on closed
inputs: zero token counts, zero context window, and a reply that is always
the literal `"UNCHANGED"`. -/
def unchangedFmLlm : FmLlm :=
  ⟨fun _ => 0, 0, fun _ => ⟨"UNCHANGED".toList, 1⟩⟩

end DiffuAgent

namespace DiffuAgent

/-- C7: `calculate_leftover_tokens` returns 1000 exactly when
`max_context_length < input_token_count + 2`, and otherwise the remaining
budget `max_context_length - input_token_count - 2` capped at 4096; in
particular it maps `(4096, 4200)` to 1000 and `(4096, 100)` to 3994. -/
theorem leftover_tokens_spec (m i : Int) :
    (m < i + 2 → calculate_leftover_tokens m i = 1000) ∧
    (i + 2 ≤ m → calculate_leftover_tokens m i = min 4096 (m - i - 2)) ∧
    calculate_leftover_tokens 4096 4200 = 1000 ∧
    calculate_leftover_tokens 4096 100 = 3994 := by
  refine ⟨fun h => ?_, fun h => ?_, by decide, by decide⟩
  · simp [calculate_leftover_tokens, h]
  · simp [calculate_leftover_tokens, not_lt.mpr h]

/-- Witness for C7 at the two concrete inputs of the claim, with both
implications discharged. -/
theorem leftover_tokens_spec_witness :
    calculate_leftover_tokens 4096 4200 = 1000 ∧
    calculate_leftover_tokens 4096 100 = min 4096 (4096 - 100 - 2) :=
  ⟨(leftover_tokens_spec 4096 4200).1 (by decide),
   (leftover_tokens_spec 4096 100).2.1 (by decide)⟩

/-- The final slice of `DynamicMemory.update` removes the consumed prefix
from the pending list whatever the LLM attempts did. -/
theorem DMem.update_stored (m : DMem) (d : Bool) (atts : List (Option GenResp)) :
    (m.update d atts).stored = pySliceFrom m.update_num m.stored := by
  unfold DMem.update
  cases d
  · cases tryAttempts (atts.take 3) <;> rfl
  · rfl

/-- The memory update never touches the two tunables. -/
theorem DMem.update_tunables (m : DMem) (d : Bool) (atts : List (Option GenResp)) :
    (m.update d atts).stored_memory_max = m.stored_memory_max ∧
      (m.update d atts).update_num = m.update_num := by
  unfold DMem.update
  cases d
  · cases tryAttempts (atts.take 3) <;> exact ⟨rfl, rfl⟩
  · exact ⟨rfl, rfl⟩

/-- A store never touches the two tunables either. -/
theorem DMem.store_tunables (m : DMem) (msg : List Char) (d : Bool)
    (atts : List (Option GenResp)) :
    (m.store msg d atts).stored_memory_max = m.stored_memory_max ∧
      (m.store msg d atts).update_num = m.update_num := by
  unfold DMem.store DMem.storeF
  split
  · exact DMem.update_tunables _ _ _
  · exact ⟨rfl, rfl⟩

/-- Threshold field after a store. -/
theorem DMem.store_max_eq (m : DMem) (msg : List Char) (d : Bool)
    (atts : List (Option GenResp)) :
    (m.store msg d atts).stored_memory_max = m.stored_memory_max :=
  (DMem.store_tunables m msg d atts).1

/-- Consumption size field after a store. -/
theorem DMem.store_un_eq (m : DMem) (msg : List Char) (d : Bool)
    (atts : List (Option GenResp)) :
    (m.store msg d atts).update_num = m.update_num :=
  (DMem.store_tunables m msg d atts).2

/-- Pending list left by a store: the appended list, flushed when it has
reached the threshold. -/
theorem DMem.store_stored (m : DMem) (msg : List Char) (d : Bool)
    (atts : List (Option GenResp)) :
    (m.store msg d atts).stored =
      if ((m.stored.length : Int) + 1) ≥ m.stored_memory_max then
        pySliceFrom m.update_num (m.stored ++ [msg])
      else m.stored ++ [msg] := by
  unfold DMem.store DMem.storeF
  split <;> rename_i h <;> simp at h
  · rw [if_pos (by push_cast; omega), DMem.update_stored]
  · rw [if_neg (by push_cast; omega)]

/-- Flush indicator of a store: set exactly when the appended pending list
has reached the threshold. -/
theorem DMem.storeF_snd (m : DMem) (msg : List Char) (d : Bool)
    (atts : List (Option GenResp)) :
    (m.storeF msg d atts).2 = decide (((m.stored.length : Int) + 1) ≥ m.stored_memory_max) := by
  unfold DMem.storeF
  split <;> rename_i h <;> simp at h ⊢ <;> push_cast at h ⊢ <;> omega

/-- C2: from a fresh `DynamicMemory` with `stored_memory_max = 4` and
`update_num = 2`, the first three stores trigger no flush; the fourth
triggers one flush that consumes the two oldest items, leaving
`len_store() = 2`; a fifth store leaves 3 pending items with no flush; a
sixth reaches 4 pending and triggers a second flush. -/
theorem dmem_flush_schedule (m1 m2 m3 m4 m5 m6 : List Char) (d : Bool)
    (a1 a2 a3 a4 a5 a6 : List (Option GenResp)) :
    (((DMem.resetMem 4 2).storeF m1 d a1).2 = false) ∧
    ((((DMem.resetMem 4 2).store m1 d a1).storeF m2 d a2).2 = false) ∧
    (((((DMem.resetMem 4 2).store m1 d a1).store m2 d a2).storeF m3 d a3).2 = false) ∧
    ((((((DMem.resetMem 4 2).store m1 d a1).store m2 d a2).store m3 d a3).storeF m4 d a4).2
      = true) ∧
    ((((((DMem.resetMem 4 2).store m1 d a1).store m2 d a2).store m3 d a3).store m4 d a4).stored
      = [m3, m4]) ∧
    ((((((DMem.resetMem 4 2).store m1 d a1).store m2 d a2).store m3 d a3).store m4 d a4).len_store
      = 2) ∧
    (((((((DMem.resetMem 4 2).store m1 d a1).store m2 d a2).store m3 d a3).store m4 d a4).storeF
        m5 d a5).2 = false) ∧
    (((((((DMem.resetMem 4 2).store m1 d a1).store m2 d a2).store m3 d a3).store m4 d a4).store
        m5 d a5).len_store = 3) ∧
    ((((((((DMem.resetMem 4 2).store m1 d a1).store m2 d a2).store m3 d a3).store m4 d a4).store
        m5 d a5).storeF m6 d a6).2 = true) ∧
    ((((((((DMem.resetMem 4 2).store m1 d a1).store m2 d a2).store m3 d a3).store m4 d a4).store
        m5 d a5).store m6 d a6).len_store = 2) := by
  simp only [DMem.len_store, DMem.storeF_snd, DMem.store_stored, DMem.store_max_eq,
    DMem.store_un_eq, DMem.resetMem, pySliceFrom]
  norm_num [show Int.toNat 2 = 2 from rfl]

/-- C3 (the failing input): a `DynamicMemory.update` whose single successful
`generate` attempt returns the plain-text reply `"Updated summary"` (the
backend shape with `return_token=False`) installs only the first character
`"U"` as the new summary — not the reply text — while the same reply
delivered in the `(text, token_count)` shape installs the full text; in both
cases exactly the two oldest pending items are removed. -/
theorem dmem_update_plain_reply_bug :
    (((⟨"(empty)".toList, ["o1".toList, "a1".toList, "o2".toList, "a2".toList], 4, 2⟩ :
        DMem).update false [some (.plain "Updated summary".toList)]).memory_str
      = "U".toList) ∧
    (((⟨"(empty)".toList, ["o1".toList, "a1".toList, "o2".toList, "a2".toList], 4, 2⟩ :
        DMem).update false [some (.plain "Updated summary".toList)]).memory_str
      ≠ "Updated summary".toList) ∧
    (((⟨"(empty)".toList, ["o1".toList, "a1".toList, "o2".toList, "a2".toList], 4, 2⟩ :
        DMem).update false [some (.pair "Updated summary".toList 7)]).memory_str
      = "Updated summary".toList) ∧
    (((⟨"(empty)".toList, ["o1".toList, "a1".toList, "o2".toList, "a2".toList], 4, 2⟩ :
        DMem).update false [some (.plain "Updated summary".toList)]).stored
      = ["o2".toList, "a2".toList]) := by
  decide

/-- A single completed store keeps the pending count strictly below the
flush threshold, provided it was strictly below before and at least one item
is consumed per flush. -/
theorem DMem.store_invariant (m : DMem) (h1 : 1 ≤ m.update_num)
    (h2 : (m.stored.length : Int) < m.stored_memory_max) (msg : List Char)
    (d : Bool) (atts : List (Option GenResp)) :
    ((m.store msg d atts).stored.length : Int) < (m.store msg d atts).stored_memory_max := by
  rw [DMem.store_stored, DMem.store_max_eq]
  split
  · rename_i hge
    simp only [pySliceFrom]
    rw [if_pos (by omega)]
    have hlen : (List.drop m.update_num.toNat (m.stored ++ [msg])).length
        = (m.stored.length + 1) - m.update_num.toNat := by
      simp
    have h1n : 1 ≤ m.update_num.toNat := by omega
    rw [hlen]
    have hle : (m.stored.length + 1) - m.update_num.toNat ≤ m.stored.length := by
      omega
    have := h2
    push_cast
    omega
  · rename_i hlt
    simp only [List.length_append, List.length_cons, List.length_nil]
    push_cast
    omega

/-- The pending-buffer invariant survives any sequence of stores. -/
theorem runStores_invariant (calls : List StoreCall) :
    ∀ m : DMem, 1 ≤ m.update_num → (m.stored.length : Int) < m.stored_memory_max →
      ((runStores m calls).stored.length : Int) < (runStores m calls).stored_memory_max ∧
        (runStores m calls).stored_memory_max = m.stored_memory_max ∧
        (runStores m calls).update_num = m.update_num := by
  induction calls with
  | nil => intro m _ h2; exact ⟨h2, rfl, rfl⟩
  | cons c rest ih =>
    intro m h1 h2
    have hstep := DMem.store_invariant m h1 h2 c.message c.disable_update c.attempts
    have htun := DMem.store_tunables m c.message c.disable_update c.attempts
    have := ih (m.store c.message c.disable_update c.attempts) (by rw [htun.2]; exact h1) hstep
    refine ⟨?_, ?_, ?_⟩
    · simpa [runStores, DMem.store] using this.1
    · rw [show (runStores m (c :: rest)).stored_memory_max
          = (runStores (m.store c.message c.disable_update c.attempts) rest).stored_memory_max
          from rfl, this.2.1, htun.1]
    · rw [show (runStores m (c :: rest)).update_num
          = (runStores (m.store c.message c.disable_update c.attempts) rest).update_num
          from rfl, this.2.2, htun.2]

/-- C10 (amended): for a `DynamicMemory` reset with `update_num ≥ 1` and
`stored_memory_max ≥ 1`, every sequence of completed `store` calls —
whatever each flush's LLM attempts do and whether updates are disabled —
ends with `len_store()` strictly below `stored_memory_max`. -/
theorem dmem_pending_below_max (max_n un : Int) (h1 : 1 ≤ un) (h2 : 1 ≤ max_n)
    (calls : List StoreCall) :
    ((runStores (DMem.resetMem max_n un) calls).len_store : Int) < max_n := by
  have h0 : ((DMem.resetMem max_n un).stored.length : Int)
      < (DMem.resetMem max_n un).stored_memory_max := by
    simp [DMem.resetMem]; omega
  obtain ⟨hlt, hmax, -⟩ := runStores_invariant calls (DMem.resetMem max_n un) h1 h0
  rw [hmax] at hlt
  exact hlt

/-- Witness for C10 (amended): with `stored_memory_max = 4`, `update_num = 2`
and two concrete stores the pending count stays below 4. -/
theorem dmem_pending_below_max_witness :
    (1 : Int) ≤ 2 ∧ (1 : Int) ≤ 4 ∧
      ((runStores (DMem.resetMem 4 2)
        [⟨"o".toList, false, []⟩, ⟨"a".toList, true, []⟩]).len_store : Int) < 4 :=
  ⟨by decide, by decide,
    dmem_pending_below_max 4 2 (by decide) (by decide)
      [⟨"o".toList, false, []⟩, ⟨"a".toList, true, []⟩]⟩

/-- C10 (counterexample to the unrestricted claim): with
`stored_memory_max = 0` and `update_num = 1` a single completed store ends
with `len_store() = 0`, which is not strictly below `stored_memory_max`. -/
theorem dmem_pending_below_max_counterexample :
    1 ≤ (DMem.resetMem 0 1).update_num ∧
    ¬ (((runStores (DMem.resetMem 0 1) [⟨"m".toList, false, []⟩]).len_store : Int)
        < (runStores (DMem.resetMem 0 1) [⟨"m".toList, false, []⟩]).stored_memory_max) := by
  decide

/-- C8: with 3 or fewer candidate functions, `run_selector` returns every
candidate's name with zero token cost whatever the messages are, and its
result does not depend on the backend at all (no token counting or chat
completion influences it). -/
theorem run_selector_small (llm llm' : SelLlm) (functions : List PyFunc)
    (user_message : List PyMsg) (h : functions.length ≤ 3) :
    run_selector llm functions user_message = (functions.map (fun f => f.name), 0) ∧
    run_selector llm functions user_message = run_selector llm' functions user_message := by
  constructor <;> simp [run_selector, h]

/-- Witness for C8: one candidate function, two very different backends. -/
theorem run_selector_small_witness :
    (([⟨"cd".toList, "change directory".toList⟩] : List PyFunc)).length ≤ 3 ∧
    (run_selector ⟨fun _ => 0, 0, fun _ => none⟩
        [⟨"cd".toList, "change directory".toList⟩] []
        = (([⟨"cd".toList, "change directory".toList⟩] : List PyFunc).map
            (fun f => f.name), 0) ∧
      run_selector ⟨fun _ => 0, 0, fun _ => none⟩
        [⟨"cd".toList, "change directory".toList⟩] []
        = run_selector ⟨fun _ => 1, 9, fun _ => some ⟨"cd selected".toList, 2⟩⟩
            [⟨"cd".toList, "change directory".toList⟩] []) :=
  ⟨by decide,
    run_selector_small ⟨fun _ => 0, 0, fun _ => none⟩
      ⟨fun _ => 1, 9, fun _ => some ⟨"cd selected".toList, 2⟩⟩
      [⟨"cd".toList, "change directory".toList⟩] [] (by decide)⟩

/-- C9 (amended): whenever the editor's reply contains one of the literal
sentinels `"MISSING"`, `"UNCHANGED"` or `"NO_VALID_TOOL_CALLS"`,
`run_formateditor` returns the candidate text as left by the pre-call
length-fitting loop — which is the original candidate unchanged whenever the
candidate is a single line of at most 10000 characters — and otherwise it
returns the editor's reply text. -/
theorem run_formateditor_spec (llm : FmLlm) (messages : List PyMsg)
    (functions : List PyFunc) (r : List Char) :
    (fmSentinel (llm.chatCompletion (fmFit llm messages r).2).text = true →
      run_formateditor llm messages functions r = (fmFit llm messages r).1) ∧
    (fmSentinel (llm.chatCompletion (fmFit llm messages r).2).text = false →
      run_formateditor llm messages functions r
        = (llm.chatCompletion (fmFit llm messages r).2).text) ∧
    (countNl r = 0 → r.length ≤ 10000 → (fmFit llm messages r).1 = r) := by
  refine ⟨fun h => ?_, fun h => ?_, fun h0 h1 => ?_⟩
  · simp [run_formateditor, h]
  · simp [run_formateditor, h]
  · simp [fmFit, fmFitF, h0, Nat.not_lt.mpr h1]

/-- Witness for C9 (amended): a short single-line candidate and a backend
that always replies `"UNCHANGED"` — the candidate comes back unchanged. -/
theorem run_formateditor_spec_witness :
    fmSentinel (unchangedFmLlm.chatCompletion
        (fmFit unchangedFmLlm [] "[ls()]".toList).2).text = true ∧
    run_formateditor unchangedFmLlm [] [] "[ls()]".toList
      = (fmFit unchangedFmLlm [] "[ls()]".toList).1 :=
  ⟨by decide, (run_formateditor_spec unchangedFmLlm [] [] "[ls()]".toList).1 (by decide)⟩

/-- C9 (counterexample): on a single-line candidate of 10001 characters the
length-fitting loop truncates to the first 10000 characters before the
editor is called, so even an `"UNCHANGED"` reply does not give back the
original candidate text. -/
theorem run_formateditor_truncation_counterexample :
    fmSentinel (unchangedFmLlm.chatCompletion
        (fmFit unchangedFmLlm [] (List.replicate 10001 'a')).2).text = true ∧
    run_formateditor unchangedFmLlm [] [] (List.replicate 10001 'a')
      = List.replicate 10000 'a' ∧
    run_formateditor unchangedFmLlm [] [] (List.replicate 10001 'a')
      ≠ List.replicate 10001 'a' := by
  have hnl : countNl (List.replicate 10001 'a') = 0 := by
    rw [countNl, List.count_replicate]
    decide
  have hsingle : ∀ (llm : FmLlm) (messages : List PyMsg) (fuel : Nat) (r : List Char),
      countNl r = 0 →
      (fmFitF llm messages (fuel + 1) r).1
        = if r.length > 10000 then r.take 10000 else r := by
    intro llm messages fuel r h
    simp [fmFitF, h]
  have hfit : (fmFit unchangedFmLlm [] (List.replicate 10001 'a')).1
      = List.replicate 10000 'a' := by
    unfold fmFit
    rw [hnl]
    rw [hsingle unchangedFmLlm [] 0 (List.replicate 10001 'a') hnl]
    rw [if_pos (by rw [List.length_replicate]; decide)]
    rw [List.take_replicate]
    norm_num
  have hrun : run_formateditor unchangedFmLlm [] [] (List.replicate 10001 'a')
      = List.replicate 10000 'a' := by
    rw [show run_formateditor unchangedFmLlm [] [] (List.replicate 10001 'a')
        = (if fmSentinel (unchangedFmLlm.chatCompletion
              (fmFit unchangedFmLlm [] (List.replicate 10001 'a')).2).text then
            (fmFit unchangedFmLlm [] (List.replicate 10001 'a')).1
          else (unchangedFmLlm.chatCompletion
              (fmFit unchangedFmLlm [] (List.replicate 10001 'a')).2).text) from rfl]
    rw [if_pos (by decide)]
    exact hfit
  refine ⟨by decide, hrun, ?_⟩
  rw [hrun]
  intro h
  have hlen := congrArg List.length h
  rw [List.length_replicate, List.length_replicate] at hlen
  exact absurd hlen (by decide)

/-- The step counter after `n` agent updates is `n`, and the configured
frequency is preserved. -/
theorem nthUpdate_steps (vi : Int) (n : Nat) :
    (nthUpdate vi n).1.steps = n ∧ (nthUpdate vi n).1.verification_iter = vi := by
  induction n with
  | zero => exact ⟨rfl, rfl⟩
  | succ n ih =>
    refine ⟨?_, ih.2⟩
    show (nthUpdate vi n).1.steps + 1 = ((n + 1 : Nat) : Int)
    rw [ih.1]
    omega

/-- C5 (counterexample): `calculate_difficulty_metrics` does not return a
per-difficulty grounding rate.  On success flags `[1, 0]`, progress scores
`[1, 0]`, grounding accuracies `[1/4, 3/4]` and difficulties
`["hard", "easy"]` the grounding rate restricted to the `"hard"` subset is
`1/4`, yet none of the seven entries of the returned dict equals `1/4`. -/
theorem difficulty_metrics_no_hard_grounding :
    (selectByTag [1/4, 3/4] ["hard".toList, "easy".toList] "hard".toList).sum /
        (selectByTag [1/4, 3/4] ["hard".toList, "easy".toList] "hard".toList).length
      = (1/4 : ℚ) ∧
    (calculate_difficulty_metrics [1, 0] [1, 0] [1/4, 3/4]
      ["hard".toList, "easy".toList]).sr ≠ (1/4 : ℚ) ∧
    (calculate_difficulty_metrics [1, 0] [1, 0] [1/4, 3/4]
      ["hard".toList, "easy".toList]).pr ≠ (1/4 : ℚ) ∧
    (calculate_difficulty_metrics [1, 0] [1, 0] [1/4, 3/4]
      ["hard".toList, "easy".toList]).gr ≠ (1/4 : ℚ) ∧
    (calculate_difficulty_metrics [1, 0] [1, 0] [1/4, 3/4]
      ["hard".toList, "easy".toList]).hard_sr ≠ (1/4 : ℚ) ∧
    (calculate_difficulty_metrics [1, 0] [1, 0] [1/4, 3/4]
      ["hard".toList, "easy".toList]).hard_pr ≠ (1/4 : ℚ) ∧
    (calculate_difficulty_metrics [1, 0] [1, 0] [1/4, 3/4]
      ["hard".toList, "easy".toList]).easy_sr ≠ (1/4 : ℚ) ∧
    (calculate_difficulty_metrics [1, 0] [1, 0] [1/4, 3/4]
      ["hard".toList, "easy".toList]).easy_pr ≠ (1/4 : ℚ) := by
  have hne1 : "easy".toList ≠ "hard".toList := by decide
  have hne2 : "hard".toList ≠ "easy".toList := by decide
  refine ⟨?_, ?_, ?_, ?_, ?_, ?_, ?_, ?_⟩ <;>
    simp [calculate_difficulty_metrics, selectByTag, meanOrZero, hne1, hne2] <;>
    norm_num

/-- C5 (amended): on non-empty equal-length inputs,
`calculate_difficulty_metrics` returns the overall success, progress and
grounding rates as the means of the three lists, and the success and
progress rates (only — no grounding rate) restricted to the `"hard"` and
`"easy"` subsets, each such restricted statistic being 0 rather than a
division failure when its subset is empty. -/
theorem difficulty_metrics_spec (srs scores grounding_accs : List ℚ)
    (difficulties : List (List Char)) (h1 : srs ≠ []) (h2 : scores ≠ [])
    (h3 : grounding_accs ≠ []) (h4 : srs.length = difficulties.length)
    (h5 : scores.length = difficulties.length)
    (h6 : grounding_accs.length = difficulties.length) :
    (calculate_difficulty_metrics srs scores grounding_accs difficulties).sr
      = srs.sum / srs.length ∧
    (calculate_difficulty_metrics srs scores grounding_accs difficulties).pr
      = scores.sum / scores.length ∧
    (calculate_difficulty_metrics srs scores grounding_accs difficulties).gr
      = grounding_accs.sum / grounding_accs.length ∧
    (selectByTag srs difficulties "hard".toList = [] →
      (calculate_difficulty_metrics srs scores grounding_accs difficulties).hard_sr = 0) ∧
    (selectByTag srs difficulties "hard".toList ≠ [] →
      (calculate_difficulty_metrics srs scores grounding_accs difficulties).hard_sr
        = (selectByTag srs difficulties "hard".toList).sum /
            (selectByTag srs difficulties "hard".toList).length) ∧
    (selectByTag scores difficulties "hard".toList = [] →
      (calculate_difficulty_metrics srs scores grounding_accs difficulties).hard_pr = 0) ∧
    (selectByTag scores difficulties "hard".toList ≠ [] →
      (calculate_difficulty_metrics srs scores grounding_accs difficulties).hard_pr
        = (selectByTag scores difficulties "hard".toList).sum /
            (selectByTag scores difficulties "hard".toList).length) ∧
    (selectByTag srs difficulties "easy".toList = [] →
      (calculate_difficulty_metrics srs scores grounding_accs difficulties).easy_sr = 0) ∧
    (selectByTag srs difficulties "easy".toList ≠ [] →
      (calculate_difficulty_metrics srs scores grounding_accs difficulties).easy_sr
        = (selectByTag srs difficulties "easy".toList).sum /
            (selectByTag srs difficulties "easy".toList).length) ∧
    (selectByTag scores difficulties "easy".toList = [] →
      (calculate_difficulty_metrics srs scores grounding_accs difficulties).easy_pr = 0) ∧
    (selectByTag scores difficulties "easy".toList ≠ [] →
      (calculate_difficulty_metrics srs scores grounding_accs difficulties).easy_pr
        = (selectByTag scores difficulties "easy".toList).sum /
            (selectByTag scores difficulties "easy".toList).length) := by
  refine ⟨rfl, rfl, rfl, ?_, ?_, ?_, ?_, ?_, ?_, ?_, ?_⟩ <;> intro h <;>
    simp only [calculate_difficulty_metrics, meanOrZero] <;>
    first
      | (rw [h]; simp)
      | (rw [if_pos (List.length_pos.mpr h)])

/-- Witness for C5 (amended) at concrete inputs, with all hypotheses
discharged; the `"hard"` subsets are non-empty and the conclusions follow
from the theorem. -/
theorem difficulty_metrics_spec_witness :
    (([1, 0] : List ℚ) ≠ [] ∧ ([1, 0] : List ℚ) ≠ [] ∧
      ([1/4, 3/4] : List ℚ) ≠ [] ∧
      ([1, 0] : List ℚ).length = (["hard".toList, "easy".toList]).length ∧
      ([1, 0] : List ℚ).length = (["hard".toList, "easy".toList]).length ∧
      ([1/4, 3/4] : List ℚ).length = (["hard".toList, "easy".toList]).length) ∧
    ((calculate_difficulty_metrics [1, 0] [1, 0] [1/4, 3/4]
        ["hard".toList, "easy".toList]).sr = ([1, 0] : List ℚ).sum / ([1, 0] : List ℚ).length ∧
      (calculate_difficulty_metrics [1, 0] [1, 0] [1/4, 3/4]
        ["hard".toList, "easy".toList]).hard_sr
        = (selectByTag [1, 0] ["hard".toList, "easy".toList] "hard".toList).sum /
            (selectByTag [1, 0] ["hard".toList, "easy".toList] "hard".toList).length) := by
  refine ⟨⟨by decide, by decide, by decide, by decide, by decide, by decide⟩, ?_, ?_⟩
  · exact (difficulty_metrics_spec [1, 0] [1, 0] [1/4, 3/4] ["hard".toList, "easy".toList]
      (by decide) (by decide) (by decide) (by decide) (by decide) (by decide)).1
  · refine (difficulty_metrics_spec [1, 0] [1, 0] [1/4, 3/4] ["hard".toList, "easy".toList]
      (by decide) (by decide) (by decide) (by decide) (by decide) (by decide)).2.2.2.2.1 ?_
    decide

/-- C6 (counterexample): `parseAction` does not collapse `" in "` phrasing on
every action — the rewrite is gated on the substring `"put"`.  On
`"go in the box."` only the trailing period is stripped: the output still
contains `" in "` and contains no `" in/on "`. -/
theorem parseAction_no_put_counterexample :
    parseAction "go in the box.".toList = "go in the box".toList ∧
    isSub " in ".toList (parseAction "go in the box.".toList) = true ∧
    isSub " in/on ".toList (parseAction "go in the box.".toList) = false := by
  decide

/-- C6 (amended): `parseAction` strips surrounding whitespace and one
trailing period from every action; only when the stripped action contains
`"put"` does it additionally rewrite every `" in "` — or, when no `" in "`
occurs, every `" on "` — to `" in/on "`; in particular
`parseAction("put the mug in the microwave.")` yields
`"put the mug in/on the microwave"`. -/
theorem parseAction_spec (action : List Char) :
    (parseAction "put the mug in the microwave.".toList
      = "put the mug in/on the microwave".toList) ∧
    (isSub "put".toList (pyStrip action) = false →
      parseAction action =
        (if pyEndsWith (pyStrip action) '.' then pyStrip (pyStrip action).dropLast
         else pyStrip action)) ∧
    (isSub "put".toList (pyStrip action) = true →
      isSub " in ".toList (pyStrip action) = true →
      parseAction action =
        (if pyEndsWith (pyReplace (pyStrip action) " in ".toList " in/on ".toList) '.' then
          pyStrip (pyReplace (pyStrip action) " in ".toList " in/on ".toList).dropLast
         else pyReplace (pyStrip action) " in ".toList " in/on ".toList)) ∧
    (isSub "put".toList (pyStrip action) = true →
      isSub " in ".toList (pyStrip action) = false →
      isSub " on ".toList (pyStrip action) = true →
      parseAction action =
        (if pyEndsWith (pyReplace (pyStrip action) " on ".toList " in/on ".toList) '.' then
          pyStrip (pyReplace (pyStrip action) " on ".toList " in/on ".toList).dropLast
         else pyReplace (pyStrip action) " on ".toList " in/on ".toList)) ∧
    (isSub "put".toList (pyStrip action) = true →
      isSub " in ".toList (pyStrip action) = false →
      isSub " on ".toList (pyStrip action) = false →
      parseAction action =
        (if pyEndsWith (pyStrip action) '.' then pyStrip (pyStrip action).dropLast
         else pyStrip action)) := by
  refine ⟨by decide, ?_, ?_, ?_, ?_⟩
  · intro h
    simp at h
    simp [parseAction, h]
  · intro h1 h2
    simp at h1 h2
    simp [parseAction, h1, h2]
  · intro h1 h2 h3
    simp at h1 h3
    simp at h2
    simp [parseAction, h1, h2, h3]
  · intro h1 h2 h3
    simp at h1
    simp at h2 h3
    simp [parseAction, h1, h2, h3]

/-- Witness for C6 (amended): the mug example, and a no-`"put"` action where
only whitespace and the trailing period are stripped. -/
theorem parseAction_spec_witness :
    isSub "put".toList (pyStrip "go in the box.".toList) = false ∧
    parseAction "go in the box.".toList =
      (if pyEndsWith (pyStrip "go in the box.".toList) '.' then
        pyStrip (pyStrip "go in the box.".toList).dropLast
       else pyStrip "go in the box.".toList) :=
  ⟨by decide, (parseAction_spec "go in the box.".toList).2.1 (by decide)⟩

/-- Python `max(similarities, key=...)` over a non-empty list: the result is
one of the candidates, carries its own similarity score, and its score
dominates every candidate's score. -/
theorem bestSimilar_spec (pred : List Char) (rest : List (List Char)) :
    ∀ v : List Char,
      ((bestSimilar pred v rest).1 = v ∨ (bestSimilar pred v rest).1 ∈ rest) ∧
      (bestSimilar pred v rest).2 = similarityRatio pred (bestSimilar pred v rest).1 ∧
      similarityRatio pred v ≤ (bestSimilar pred v rest).2 ∧
      ∀ m ∈ rest, similarityRatio pred m ≤ (bestSimilar pred v rest).2 := by
  induction rest with
  | nil =>
    intro v
    refine ⟨Or.inl rfl, rfl, le_refl _, ?_⟩
    intro m hm
    exact absurd hm (List.not_mem_nil m)
  | cons a rest ih =>
    intro v
    have hstep : bestSimilar pred v (a :: rest)
        = bestSimilar pred (if similarityRatio pred a > similarityRatio pred v then a else v)
            rest := by
      by_cases hc : similarityRatio pred a > similarityRatio pred v
      · simp [bestSimilar, simStep, hc]
      · simp [bestSimilar, simStep, hc]
    by_cases hc : similarityRatio pred a > similarityRatio pred v
    · rw [if_pos hc] at hstep
      obtain ⟨hmem, hscore, hbase, hall⟩ := ih a
      rw [hstep]
      refine ⟨?_, hscore, ?_, ?_⟩
      · rcases hmem with h | h
        · refine Or.inr ?_
          rw [h]
          exact List.mem_cons_self a rest
        · exact Or.inr (List.mem_cons_of_mem a h)
      · exact le_trans (le_of_lt hc) hbase
      · intro m hm
        rcases List.mem_cons.mp hm with h | h
        · rw [h]; exact hbase
        · exact hall m h
    · rw [if_neg hc] at hstep
      obtain ⟨hmem, hscore, hbase, hall⟩ := ih v
      rw [hstep]
      refine ⟨?_, hscore, hbase, ?_⟩
      · rcases hmem with h | h
        · exact Or.inl h
        · exact Or.inr (List.mem_cons_of_mem a h)
      · intro m hm
        rcases List.mem_cons.mp hm with h | h
        · exact h ▸ le_trans (not_lt.mp hc) hbase
        · exact hall m h

/-- C1: on a non-empty valid-action list, `find_most_similar_action` returns
a value: the prediction itself when it is a member of the list; otherwise a
member of highest similarity ratio whenever some member's ratio exceeds 0.5,
and the original prediction when every member's ratio is at most 0.5. -/
theorem find_most_similar_action_spec (pred : List Char) (valid : List (List Char))
    (hne : valid ≠ []) :
    ∃ r, find_most_similar_action pred valid = some r ∧
      (pred ∈ valid → r = pred) ∧
      (pred ∉ valid →
        ((∃ m ∈ valid, (1 : ℚ)/2 < similarityRatio pred m) →
          r ∈ valid ∧ (1 : ℚ)/2 < similarityRatio pred r ∧
            ∀ m ∈ valid, similarityRatio pred m ≤ similarityRatio pred r) ∧
        ((∀ m ∈ valid, similarityRatio pred m ≤ (1 : ℚ)/2) → r = pred)) := by
  by_cases hmem : pred ∈ valid
  · refine ⟨pred, ?_, fun _ => rfl, fun hnm => absurd hmem hnm⟩
    simp [find_most_similar_action, hmem]
  · match valid, hne with
    | v :: rest, _ =>
      obtain ⟨hbmem, hbscore, hbbase, hball⟩ := bestSimilar_spec pred rest v
      have hall : ∀ m ∈ v :: rest, similarityRatio pred m ≤ (bestSimilar pred v rest).2 := by
        intro m hm
        rcases List.mem_cons.mp hm with h | h
        · rw [h]; exact hbbase
        · exact hball m h
      have hbv : (bestSimilar pred v rest).1 ∈ v :: rest := by
        rcases hbmem with h | h
        · rw [h]; exact List.mem_cons_self v rest
        · exact List.mem_cons_of_mem v h
      have heq : find_most_similar_action pred (v :: rest)
          = if (bestSimilar pred v rest).2 > 1/2 then some (bestSimilar pred v rest).1
            else some pred := by
        simp only [find_most_similar_action, hmem, if_false, ite_false]
      by_cases hgt : (bestSimilar pred v rest).2 > 1/2
      · refine ⟨(bestSimilar pred v rest).1, by rw [heq, if_pos hgt],
          fun h => absurd h hmem, fun _ => ⟨fun _ => ⟨hbv, ?_, ?_⟩, fun hle => ?_⟩⟩
        · rw [← hbscore]; exact hgt
        · intro m hm
          rw [← hbscore]
          exact hall m hm
        · exact absurd hgt (not_lt.mpr (by rw [hbscore]; exact hle _ hbv))
      · refine ⟨pred, by rw [heq, if_neg hgt], fun h => absurd h hmem,
          fun _ => ⟨fun hex => ?_, fun _ => rfl⟩⟩
        obtain ⟨m, hm, hmgt⟩ := hex
        exact absurd (lt_of_lt_of_le hmgt (hall m hm)) hgt

/-- Witness for C1 at a concrete prediction and valid-action list. -/
theorem find_most_similar_action_spec_witness :
    (["look around".toList, "go north".toList] : List (List Char)) ≠ [] ∧
    (∃ r, find_most_similar_action "look".toList
        ["look around".toList, "go north".toList] = some r ∧
      ("look".toList ∈ (["look around".toList, "go north".toList] : List (List Char)) →
        r = "look".toList) ∧
      ("look".toList ∉ (["look around".toList, "go north".toList] : List (List Char)) →
        ((∃ m ∈ (["look around".toList, "go north".toList] : List (List Char)),
            (1 : ℚ)/2 < similarityRatio "look".toList m) →
          r ∈ (["look around".toList, "go north".toList] : List (List Char)) ∧
            (1 : ℚ)/2 < similarityRatio "look".toList r ∧
            ∀ m ∈ (["look around".toList, "go north".toList] : List (List Char)),
              similarityRatio "look".toList m ≤ similarityRatio "look".toList r) ∧
        ((∀ m ∈ (["look around".toList, "go north".toList] : List (List Char)),
            similarityRatio "look".toList m ≤ (1 : ℚ)/2) → r = "look".toList))) :=
  ⟨by decide,
    find_most_similar_action_spec "look".toList
      ["look around".toList, "go north".toList] (by decide)⟩

/-- C4: with `verification_iter = 3` the `n`-th agent update (which sets the
step counter to `n`) runs a verification check exactly when the step counter
is divisible by 3, and never otherwise; with `verification_iter = 0` no
update ever runs a check (nor does the initial reset in either case). -/
theorem verification_schedule (n : Nat) :
    ((nthUpdate 3 (n + 1)).2 = true ↔ (nthUpdate 3 (n + 1)).1.steps % 3 = 0) ∧
    (nthUpdate 0 (n + 1)).2 = false ∧
    (nthUpdate 3 0).2 = false ∧ (nthUpdate 0 0).2 = false := by
  refine ⟨?_, ?_, rfl, rfl⟩
  · show ((nthUpdate 3 n).1.updateStep.2 = true ↔ _)
    unfold AgentV.updateStep
    simp only [shouldVerify, (nthUpdate_steps 3 n).2, (nthUpdate_steps 3 n).1]
    have hsteps : (nthUpdate 3 (n + 1)).1.steps = ((n : Int) + 1) :=
      (nthUpdate_steps 3 (n + 1)).1
    rw [hsteps]
    simp
  · show ((nthUpdate 0 n).1.updateStep.2 = false)
    unfold AgentV.updateStep
    simp [shouldVerify, (nthUpdate_steps 0 n).2]

end DiffuAgent
